import Mathlib

/-!
Shallow embedding of the span-tracking and trace-reconstruction engine of the
ts-agent-file repository.

The embedded code comes from two places in the repository:

* the test-probe runtime (the module exporting the probe runtime symbols, bundled in
  src/test-probe-demo.js): the value formatter toStr, the call-stack tracker
  (probe wrap, probe enter, probe exit), recordSpan, clearSpans, the span
  queries and getCallTree;
* the OpenTelemetry span cache in src/instrumentation.node.js: SpanCache.addSpan
  with its amortized eviction (cleanup).

Modelling conventions:

* JavaScript runtime values captured as arguments, return values и errors are
  embedded as the inductive JSValue; a plain object carries the result of
  JSON.stringify as an Option String (none when stringification throws, as for a
  self-referential object).
* The identifier generator (Math.random based, unique with overwhelming
  probability per the specification) is embedded as a fresh-name supply: a
  nextId counter threaded through the tracker state; each generateId call
  returns the counter and increments it.
* Date.now() timestamps are passed to each operation as an explicit parameter.
* The JavaScript call stack array is a Lean list in the same order (index 0 is
  the oldest entry); push appends at the end, pop drops the last element,
  findIndex plus splice is List.eraseP.
-/

set_option maxRecDepth 4096

namespace TsAgent

/-- Embedded JavaScript runtime value, with the observations toStr needs.
The obj constructor carries the outcome of JSON.stringify (none when it
throws); the other constructor carries the String() rendering of values that
reach the final String(val) fallback (symbols, bigints). -/
inductive JSValue where
  | undef
  | null
  | str (s : String)
  | num (rendering : String)
  | bool (b : Bool)
  | fn (name : String)
  | arr (length : Nat)
  | obj (json : Option String)
  | other (stringForm : String)
deriving DecidableEq, Repr

/-- Value formatter toStr of the test-probe runtime. -/
def toStr : JSValue → String
  | .undef => ""
  | .null => "null"
  | .str s => if 500 < s.length then s.take 500 ++ "..." else s
  | .num r => r
  | .bool b => if b then "true" else "false"
  | .fn n => "[Function " ++ (if n = "" then "anonymous" else n) ++ "]"
  | .arr len => "Array(" ++ toString len ++ ")"
  | .obj json =>
      match json with
      | some s => if 500 < s.length then s.take 500 ++ "..." else s
      | none => "[unserializable]"
  | .other s => s

/-- Thrown JavaScript error value: its message property (none when absent) and
its String() rendering. -/
structure JSErr where
  message : Option String
  stringForm : String
deriving DecidableEq, Repr

/-- The message the runtime derives from a caught error: String of
err.message when that is truthy, else String of err itself. -/
def errMsg (e : JSErr) : String :=
  match e.message with
  | some m => if m = "" then e.stringForm else m
  | none => e.stringForm

inductive SpanStatus where
  | ok
  | error
deriving DecidableEq, Repr

/-- Open invocation entry on the call stack. -/
structure CallStackEntry where
  spanId : Nat
  functionName : String
  location : String
  startTime : Nat
  args : List JSValue
  parentSpanId : Option Nat
deriving DecidableEq, Repr

/-- Finalized span record. -/
structure SpanRecord where
  traceId : Nat
  spanId : Nat
  parentSpanId : Option Nat
  name : String
  location : String
  startTime : Nat
  endTime : Nat
  duration : Int
  status : SpanStatus
  errorMessage : Option String
  args : List String
  returnValue : Option String
  callerName : Option String
deriving DecidableEq, Repr

def MAX_SPANS : Nat := 10000

/-- The module-level mutable state of the test-probe runtime: currentTraceId,
callStack and spanRecords, plus the fresh-identifier counter that embeds
generateId. -/
structure TrackerState where
  currentTraceId : Option Nat
  callStack : List CallStackEntry
  spanRecords : List SpanRecord
  nextId : Nat
deriving DecidableEq, Repr

def initState : TrackerState := ⟨none, [], [], 0⟩

/-- getCurrentParent: the top of the call stack. -/
def getCurrentParent (st : TrackerState) : Option CallStackEntry :=
  st.callStack.getLast?

/-- The trace identifier used right now and the id-supply counter after it:
when a trace is active it is reused and the counter is untouched; otherwise
generateId mints the next identifier. This is the shared reading of
currentTraceId or generateId in recordSpan, and of the conditional minting at
the top of the wrapped call and probe enter. -/
def mintTrace (st : TrackerState) : Nat × Nat :=
  match st.currentTraceId with
  | some t => (t, st.nextId)
  | none => (st.nextId, st.nextId + 1)

/-- The span record recordSpan constructs from an open entry: the traceId
falls back to a freshly generated id when currentTraceId is null; args are the
first 10 arguments formatted; callerName is resolved against the entries still
open on the call stack; the returnValue field is present only when the value
is not undefined; the errorMessage field is present only when the message
string is truthy (non-empty). -/
def finalizeRecord (st : TrackerState) (entry : CallStackEntry) (endTime : Nat)
    (status : SpanStatus) (returnValue : JSValue) (errorMessage : Option String) :
    SpanRecord :=
  { traceId := (mintTrace st).1
    spanId := entry.spanId
    parentSpanId := entry.parentSpanId
    name := entry.functionName
    location := entry.location
    startTime := entry.startTime
    endTime := endTime
    duration := (endTime : Int) - (entry.startTime : Int)
    status := status
    errorMessage :=
      match errorMessage with
      | some s => if s = "" then none else some s
      | none => none
    args := (entry.args.take 10).map toStr
    returnValue :=
      match returnValue with
      | .undef => none
      | v => some (toStr v)
    callerName :=
      match entry.parentSpanId with
      | some pid => (st.callStack.find? (fun e => e.spanId == pid)).map
          (fun e => e.functionName)
      | none => none }

/-- recordSpan of the test-probe runtime. The caller has already removed the
entry from the call stack. When the store already holds at least MAX_SPANS
records, the oldest 1000 records (in insertion order) are spliced off before
the push; the finalized record is then appended. The generated fallback trace
id, when used, is not stored back into currentTraceId. -/
def recordSpan (st : TrackerState) (entry : CallStackEntry) (endTime : Nat)
    (status : SpanStatus) (returnValue : JSValue) (errorMessage : Option String) :
    TrackerState :=
  let records :=
    if MAX_SPANS ≤ st.spanRecords.length then st.spanRecords.drop 1000
    else st.spanRecords
  { st with
      spanRecords := records ++ [finalizeRecord st entry endTime status returnValue errorMessage]
      nextId := (mintTrace st).2 }

/-- Shared entry protocol of the wrapped-call prologue and probe enter: mint a
trace id when none is active, take the top of the stack as parent, mint a span
id, push the new open entry. Returns the new state and the pushed entry (whose
spanId is the token). -/
def probeEnter (st : TrackerState) (name location : String) (args : List JSValue)
    (now : Nat) : TrackerState × CallStackEntry :=
  let gen := mintTrace st
  let entry : CallStackEntry :=
    { spanId := gen.2
      functionName := name
      location := location
      startTime := now
      args := args
      parentSpanId := (getCurrentParent st).map (fun e => e.spanId) }
  ({ st with
      currentTraceId := some gen.1
      callStack := st.callStack ++ [entry]
      nextId := gen.2 + 1 }, entry)

/-- Shared epilogue of the wrapped call: pop the top of the call stack, record
the closed-over entry as a span, and when the chain is now empty clear the
current trace id. This is the code run on a synchronous return, in the catch
of a synchronous throw, and in the then and catch handlers attached to a
returned thenable. -/
def wrapClose (st : TrackerState) (entry : CallStackEntry) (endTime : Nat)
    (status : SpanStatus) (returnValue : JSValue) (errorMessage : Option String) :
    TrackerState :=
  let st1 := { st with callStack := st.callStack.dropLast }
  let st2 := recordSpan st1 entry endTime status returnValue errorMessage
  if st2.callStack.isEmpty then { st2 with currentTraceId := none } else st2

/-- Outcome of running the body of a synchronous wrapped call. -/
inductive SyncResult where
  | ret (v : JSValue)
  | thrown (e : JSErr)
deriving DecidableEq, Repr

/-- A whole synchronous wrapped call: enter, run the body (its outcome is
given), close with the result or with the error, and pass the body's outcome
through unchanged (the original result is returned, the original error is
re-thrown). -/
def wrappedCallSync (st : TrackerState) (name location : String)
    (args : List JSValue) (startT endT : Nat) (body : SyncResult) :
    TrackerState × SyncResult :=
  let p := probeEnter st name location args startT
  match body with
  | .ret v => (wrapClose p.1 p.2 endT .ok v none, .ret v)
  | .thrown e => (wrapClose p.1 p.2 endT .error .undef (some (errMsg e)), .thrown e)

/-- The then handler attached to a thenable returned by a wrapped call: runs
the shared epilogue with the resolved value and passes the value through. -/
def settleResolved (st : TrackerState) (entry : CallStackEntry) (endTime : Nat)
    (v : JSValue) : TrackerState × JSValue :=
  (wrapClose st entry endTime .ok v none, v)

/-- The catch handler attached to a thenable returned by a wrapped call: runs
the shared epilogue with the error and re-throws the same error. -/
def settleRejected (st : TrackerState) (entry : CallStackEntry) (endTime : Nat)
    (e : JSErr) : TrackerState × JSErr :=
  (wrapClose st entry endTime .error .undef (some (errMsg e)), e)

/-- probe exit: locate the entry by its token with findIndex; when absent the
call is a no-op; when found splice it out (by position of the id match, not
necessarily the top), record the span (error status when an error is given),
and clear the trace id when the chain emptied. -/
def probeExit (st : TrackerState) (tok : Nat) (returnValue : JSValue)
    (error : Option JSErr) (now : Nat) : TrackerState :=
  match st.callStack.find? (fun e => e.spanId == tok) with
  | none => st
  | some entry =>
      let st1 := { st with callStack := st.callStack.eraseP (fun e => e.spanId == tok) }
      let st2 :=
        match error with
        | some e => recordSpan st1 entry now .error .undef (some (errMsg e))
        | none => recordSpan st1 entry now .ok returnValue none
      if st2.callStack.isEmpty then { st2 with currentTraceId := none } else st2

/-- clearSpans: empties the span store, the call stack and the current trace
id. -/
def clearSpans (st : TrackerState) : TrackerState :=
  { st with spanRecords := [], callStack := [], currentTraceId := none }

/-- getSpansByTraceId: filter of the store in insertion order. -/
def getSpansByTraceId (store : List SpanRecord) (tid : Nat) : List SpanRecord :=
  store.filter (fun s => s.traceId == tid)

/-- Call tree node: a span together with its attached children. -/
inductive TreeNode where
  | mk : SpanRecord → List TreeNode → TreeNode

def TreeNode.span : TreeNode → SpanRecord
  | .mk s _ => s

def TreeNode.children : TreeNode → List TreeNode
  | .mk _ c => c

/-- Children attached to the node of span s by the two-pass loop of
getCallTree: the spans of the trace, in store order, whose parentSpanId is the
spanId of s. -/
def nodeChildren (spans : List SpanRecord) (s : SpanRecord) : List SpanRecord :=
  spans.filter (fun c => c.parentSpanId == some s.spanId)

/-- Functional reading of the two-pass mutation in getCallTree: the node of a
span carries, as children, the nodes of the spans attached to it. The JS code
builds the (possibly shared, possibly cyclic) object graph by mutation; this
recursion with fuel coincides with it whenever the spanIds are distinct and
the parent relation is acyclic, which is the only case in which the object
graph reads as a tree at all. -/
def buildNode (spans : List SpanRecord) : Nat → SpanRecord → TreeNode
  | 0, s => .mk s []
  | fuel + 1, s => .mk s ((nodeChildren spans s).map (buildNode spans fuel))

/-- Whether the parentSpanId of s is truthy and resolves in the span map of
this trace. -/
def resolvesInTrace (spans : List SpanRecord) (s : SpanRecord) : Bool :=
  match s.parentSpanId with
  | none => false
  | some p => spans.any (fun t => t.spanId == p)

/-- The spans pushed onto the roots array by getCallTree, in store order. -/
def rootSpans (spans : List SpanRecord) : List SpanRecord :=
  spans.filter (fun s => !resolvesInTrace spans s)

/-- Result of getCallTree: null when the trace has no spans, the single root
directly when there is exactly one, the list of roots otherwise. -/
inductive CallTreeResult where
  | null
  | single (t : TreeNode)
  | multiple (ts : List TreeNode)

/-- getCallTree of the test-probe runtime. -/
def getCallTree (store : List SpanRecord) (tid : Nat) : CallTreeResult :=
  let spans := getSpansByTraceId store tid
  if spans.isEmpty then .null
  else
    let roots := (rootSpans spans).map (buildNode spans spans.length)
    match roots with
    | [r] => .single r
    | rs => .multiple rs

/-- Occurrence of a node inside a tree: the root itself, or (recursively) an
occurrence inside one of its children. -/
inductive InTree : TreeNode → TreeNode → Prop where
  | refl (t : TreeNode) : InTree t t
  | step {r c t : TreeNode} : c ∈ r.children → InTree c t → InTree r t

/-- A minimal span record for concrete stores in examples. -/
def mkSpan (tid sid : Nat) (par : Option Nat) (start : Nat) : SpanRecord :=
  { traceId := tid, spanId := sid, parentSpanId := par, name := "", location := "",
    startTime := start, endTime := start, duration := 0, status := .ok,
    errorMessage := none, args := [], returnValue := none, callerName := none }

/-! ### The OpenTelemetry span cache of src/instrumentation.node.js -/

/-- Incoming ReadableSpan as SpanCache.addSpan consumes it: identifiers, name
and hrtime timestamps (a seconds, nanoseconds pair). -/
structure OTelSpanInput where
  traceId : Nat
  spanId : Nat
  parentSpanId : Option Nat
  name : String
  startTime : Nat × Nat
  endTime : Nat × Nat
deriving DecidableEq, Repr

/-- Conversion of an hrtime pair to fractional microseconds:
t[0] * 1000000 + t[1] / 1000. -/
def hrToMicros (t : Nat × Nat) : ℚ :=
  (t.1 : ℚ) * 1000000 + (t.2 : ℚ) / 1000

/-- Cached span record built at the top of SpanCache.addSpan. -/
structure CacheRec where
  traceId : Nat
  spanId : Nat
  parentSpanId : Option Nat
  name : String
  startTime : ℚ
  endTime : ℚ
  duration : ℚ
deriving DecidableEq, Repr

def convertSpan (s : OTelSpanInput) : CacheRec :=
  let start := hrToMicros s.startTime
  let stop := hrToMicros s.endTime
  { traceId := s.traceId
    spanId := s.spanId
    parentSpanId := s.parentSpanId
    name := s.name
    startTime := start
    endTime := stop
    duration := stop - start }

/-- The JS Map keyed by spanId, as an insertion-ordered list: set replaces the
record in place when the key is present, else appends. -/
def mapSet (spans : List CacheRec) (r : CacheRec) : List CacheRec :=
  if spans.any (fun x => x.spanId == r.spanId) then
    spans.map (fun x => if x.spanId == r.spanId then r else x)
  else spans ++ [r]

/-- getAllSpans without a limit: the map values sorted by startTime ascending
(JS Array.prototype.sort is stable; insertionSort with the non-strict order is
its stable counterpart). -/
def cacheGetAllSpans (spans : List CacheRec) : List CacheRec :=
  spans.insertionSort (fun a b => a.startTime ≤ b.startTime)

/-- SpanCache.cleanup: delete from the map the first
Math.floor(length * 0.2) spans of the startTime-sorted view. -/
def cacheCleanup (spans : List CacheRec) : List CacheRec :=
  let arr := cacheGetAllSpans spans
  let dropN := arr.length * 2 / 10
  let victims := arr.take dropN
  spans.filter (fun r => !victims.any (fun v => v.spanId == r.spanId))

/-- SpanCache.addSpan: set the converted record, then clean up when the size
exceeds maxSpans * cleanupThreshold = 10000 * 0.85 = 8500. -/
def cacheAddSpan (spans : List CacheRec) (s : OTelSpanInput) : List CacheRec :=
  let spans1 := mapSet spans (convertSpan s)
  if 8500 < spans1.length then cacheCleanup spans1 else spans1

/-! ### Helper lemmas about the tracker operations -/

theorem recordSpan_spanRecords (st : TrackerState) (entry : CallStackEntry)
    (endTime : Nat) (status : SpanStatus) (rv : JSValue) (em : Option String) :
    (recordSpan st entry endTime status rv em).spanRecords =
      (if MAX_SPANS ≤ st.spanRecords.length then st.spanRecords.drop 1000
        else st.spanRecords) ++ [finalizeRecord st entry endTime status rv em] := rfl

theorem recordSpan_getLast (st : TrackerState) (entry : CallStackEntry)
    (endTime : Nat) (status : SpanStatus) (rv : JSValue) (em : Option String) :
    (recordSpan st entry endTime status rv em).spanRecords.getLast? =
      some (finalizeRecord st entry endTime status rv em) := by
  rw [recordSpan_spanRecords, List.getLast?_concat]

theorem recordSpan_callStack (st : TrackerState) (entry : CallStackEntry)
    (endTime : Nat) (status : SpanStatus) (rv : JSValue) (em : Option String) :
    (recordSpan st entry endTime status rv em).callStack = st.callStack := rfl

theorem recordSpan_currentTraceId (st : TrackerState) (entry : CallStackEntry)
    (endTime : Nat) (status : SpanStatus) (rv : JSValue) (em : Option String) :
    (recordSpan st entry endTime status rv em).currentTraceId = st.currentTraceId := rfl

theorem wrapClose_spanRecords (st : TrackerState) (entry : CallStackEntry)
    (endTime : Nat) (status : SpanStatus) (rv : JSValue) (em : Option String) :
    (wrapClose st entry endTime status rv em).spanRecords =
      (recordSpan { st with callStack := st.callStack.dropLast }
        entry endTime status rv em).spanRecords := by
  unfold wrapClose
  dsimp only
  split <;> rfl

theorem wrapClose_getLast (st : TrackerState) (entry : CallStackEntry)
    (endTime : Nat) (status : SpanStatus) (rv : JSValue) (em : Option String) :
    (wrapClose st entry endTime status rv em).spanRecords.getLast? =
      some (finalizeRecord { st with callStack := st.callStack.dropLast }
        entry endTime status rv em) := by
  rw [wrapClose_spanRecords, recordSpan_getLast]

theorem wrapClose_callStack (st : TrackerState) (entry : CallStackEntry)
    (endTime : Nat) (status : SpanStatus) (rv : JSValue) (em : Option String) :
    (wrapClose st entry endTime status rv em).callStack = st.callStack.dropLast := by
  unfold wrapClose
  dsimp only
  split <;> rfl

theorem wrapClose_currentTraceId (st : TrackerState) (entry : CallStackEntry)
    (endTime : Nat) (status : SpanStatus) (rv : JSValue) (em : Option String) :
    (wrapClose st entry endTime status rv em).currentTraceId =
      if st.callStack.dropLast.isEmpty then none else st.currentTraceId := by
  unfold wrapClose
  dsimp only
  split <;> simp_all [recordSpan]

theorem probeEnter_fst_currentTraceId (st : TrackerState) (name location : String)
    (args : List JSValue) (now : Nat) :
    (probeEnter st name location args now).1.currentTraceId = some (mintTrace st).1 := rfl

theorem probeEnter_fst_callStack (st : TrackerState) (name location : String)
    (args : List JSValue) (now : Nat) :
    (probeEnter st name location args now).1.callStack =
      st.callStack ++ [(probeEnter st name location args now).2] := rfl

theorem probeEnter_fst_spanRecords (st : TrackerState) (name location : String)
    (args : List JSValue) (now : Nat) :
    (probeEnter st name location args now).1.spanRecords = st.spanRecords := rfl

theorem probeEnter_snd_parentSpanId (st : TrackerState) (name location : String)
    (args : List JSValue) (now : Nat) :
    (probeEnter st name location args now).2.parentSpanId =
      st.callStack.getLast?.map (fun e => e.spanId) := rfl

theorem mintTrace_fst (st : TrackerState) (t : Nat) (h : st.currentTraceId = some t) :
    (mintTrace st).1 = t := by simp [mintTrace, h]

theorem finalizeRecord_traceId (st : TrackerState) (e : CallStackEntry) (tm : Nat)
    (s : SpanStatus) (v : JSValue) (m : Option String) :
    (finalizeRecord st e tm s v m).traceId = (mintTrace st).1 := rfl

theorem mintTrace_of_none (st : TrackerState) (h : st.currentTraceId = none) :
    mintTrace st = (st.nextId, st.nextId + 1) := by simp [mintTrace, h]

theorem mintTrace_snd_of_some (st : TrackerState) (t : Nat)
    (h : st.currentTraceId = some t) : (mintTrace st).2 = st.nextId := by
  simp [mintTrace, h]

theorem wrapClose_nextId (st : TrackerState) (entry : CallStackEntry)
    (endTime : Nat) (status : SpanStatus) (rv : JSValue) (em : Option String) :
    (wrapClose st entry endTime status rv em).nextId = (mintTrace st).2 := by
  unfold wrapClose
  dsimp only
  split <;> rfl

theorem probeEnter_fst_nextId (st : TrackerState) (name location : String)
    (args : List JSValue) (now : Nat) :
    (probeEnter st name location args now).1.nextId = (mintTrace st).2 + 1 := rfl

theorem probeExit_notfound (st : TrackerState) (tok : Nat) (rv : JSValue)
    (err : Option JSErr) (now : Nat)
    (h : st.callStack.find? (fun e => e.spanId == tok) = none) :
    probeExit st tok rv err now = st := by
  unfold probeExit
  rw [h]

theorem probeExit_found_callStack (st : TrackerState) (tok : Nat) (rv : JSValue)
    (err : Option JSErr) (now : Nat) (entry : CallStackEntry)
    (h : st.callStack.find? (fun e => e.spanId == tok) = some entry) :
    (probeExit st tok rv err now).callStack =
      st.callStack.eraseP (fun e => e.spanId == tok) := by
  unfold probeExit
  rw [h]
  cases err <;> dsimp only <;> split <;> rfl

theorem probeExit_found_last_spanId (st : TrackerState) (tok : Nat) (rv : JSValue)
    (err : Option JSErr) (now : Nat) (entry : CallStackEntry)
    (h : st.callStack.find? (fun e => e.spanId == tok) = some entry) :
    ((probeExit st tok rv err now).spanRecords.getLast?.map (fun r => r.spanId)) =
      some entry.spanId := by
  unfold probeExit
  rw [h]
  cases err <;> dsimp only <;> split <;> (try dsimp only) <;>
    rw [recordSpan_getLast] <;> rfl

theorem probeExit_found_length (st : TrackerState) (tok : Nat) (rv : JSValue)
    (err : Option JSErr) (now : Nat) (entry : CallStackEntry)
    (h : st.callStack.find? (fun e => e.spanId == tok) = some entry)
    (hlen : st.spanRecords.length < MAX_SPANS) :
    (probeExit st tok rv err now).spanRecords.length = st.spanRecords.length + 1 := by
  unfold probeExit
  rw [h]
  cases err <;> dsimp only <;> split <;> (try dsimp only) <;>
    rw [recordSpan_spanRecords, if_neg (by omega : ¬ MAX_SPANS ≤ st.spanRecords.length)] <;>
    simp

/-! ### Theorems -/

/-- A 501-character string, used to exercise the truncation branch. -/
def longDemoString : String := String.mk (List.replicate 501 'a')

/-- C8: the value formatter is total over embedded values and, in particular,
truncates over-cap strings to the 500-character cap with a trailing ellipsis,
maps null to the literal null, and degrades an unserializable object (one
whose JSON.stringify throws, such as a self-referential object) to the bounded
placeholder [unserializable]. -/
theorem c8_formatter_safety :
    (∀ s : String, 500 < s.length →
      toStr (.str s) = s.take 500 ++ "..." ∧ (toStr (.str s)).length = 503) ∧
    toStr .null = "null" ∧
    toStr (.obj none) = "[unserializable]" ∧
    (toStr (.obj none)).length ≤ 503 := by
  refine ⟨fun s hs => ⟨?_, ?_⟩, rfl, rfl, by decide⟩
  · simp [toStr, hs]
  · have htake : (s.take 500).length = 500 := by
      rw [String.take_eq]
      show (s.data.take 500).length = 500
      rw [List.length_take]
      have : 500 < s.data.length := by rw [String.length_data]; exact hs
      omega
    simp [toStr, hs, htake]
    rfl

/-- C8 witness: the truncation branch evaluated at a concrete 501-character
string. -/
theorem c8_formatter_safety_witness :
    500 < longDemoString.length ∧
    (toStr (.str longDemoString) = longDemoString.take 500 ++ "..." ∧
      (toStr (.str longDemoString)).length = 503) :=
  ⟨by simp [longDemoString, String.length], by
    exact c8_formatter_safety.1 longDemoString (by simp [longDemoString, String.length])⟩

/-- C9: every recorded span's args field holds the formatted strings of at
most the first 10 positional arguments, in positional order; an invocation
with at least 10 arguments records exactly 10 formatted argument strings. -/
theorem c9_args_capped_at_ten (st : TrackerState) (entry : CallStackEntry)
    (endTime : Nat) (status : SpanStatus) (rv : JSValue) (em : Option String) :
    ((recordSpan st entry endTime status rv em).spanRecords.getLast?.map
        (fun r => r.args)) = some ((entry.args.take 10).map toStr) ∧
    (10 ≤ entry.args.length →
      ((recordSpan st entry endTime status rv em).spanRecords.getLast?.map
        (fun r => r.args.length)) = some 10) := by
  constructor
  · simp [recordSpan, finalizeRecord]
  · intro h
    simp [recordSpan, finalizeRecord, List.length_take]
    omega

/-- C1: when a wrapped function A synchronously calls a wrapped function B
(B enters while A's entry is the top of the call chain, B closes first), B's
finalized span carries parentSpanId equal to A's span id, and B's span and A's
span carry the same traceId. Stated for an arbitrary surrounding tracker
state. -/
theorem c1_sync_call_parent_and_trace (s0 : TrackerState) (nA nB lA lB : String)
    (aA aB : List JSValue) (t0 t1 t2 t3 : Nat) (vA vB : JSValue) :
    let p1 := probeEnter s0 nA lA aA t0
    let p2 := probeEnter p1.1 nB lB aB t1
    let s3 := wrapClose p2.1 p2.2 t2 .ok vB none
    let s4 := wrapClose s3 p1.2 t3 .ok vA none
    ∃ rB rA : SpanRecord,
      s3.spanRecords.getLast? = some rB ∧
      s4.spanRecords.getLast? = some rA ∧
      rB.parentSpanId = some p1.2.spanId ∧
      rB.traceId = rA.traceId := by
  intro p1 p2 s3 s4
  refine ⟨_, _, wrapClose_getLast _ _ _ _ _ _, wrapClose_getLast _ _ _ _ _ _, ?_, ?_⟩
  · show p2.2.parentSpanId = some p1.2.spanId
    rw [probeEnter_snd_parentSpanId, probeEnter_fst_callStack, List.getLast?_concat]
    rfl
  · rw [finalizeRecord_traceId, finalizeRecord_traceId]
    have hA : p2.1.currentTraceId = some (mintTrace s0).1 := by
      rw [probeEnter_fst_currentTraceId,
        mintTrace_fst p1.1 _ (probeEnter_fst_currentTraceId s0 nA lA aA t0)]
    have h3 : s3.currentTraceId = some (mintTrace s0).1 := by
      rw [wrapClose_currentTraceId, probeEnter_fst_callStack, List.dropLast_concat,
        probeEnter_fst_callStack]
      simp [hA]
    rw [mintTrace_fst _ _ (show ({p2.1 with callStack := p2.1.callStack.dropLast} :
          TrackerState).currentTraceId = some (mintTrace s0).1 from hA),
      mintTrace_fst _ _ (show ({s3 with callStack := s3.callStack.dropLast} :
          TrackerState).currentTraceId = some (mintTrace s0).1 from h3)]

/-- C2: a finalization that leaves the call chain empty clears the current
trace id, and two sequential non-nested calls of a wrapped root function
(the second entered after the first completed, starting from an empty chain
with no active trace) record spans with two distinct traceIds. -/
theorem c2_sequential_roots_distinct_traces (s0 : TrackerState)
    (h1 : s0.callStack = []) (h2 : s0.currentTraceId = none)
    (n1 n2 l1 l2 : String) (a1 a2 : List JSValue) (t0 t1 t2 t3 : Nat)
    (v1 v2 : JSValue) :
    (∀ (st : TrackerState) (entry : CallStackEntry) (endT : Nat)
      (stat : SpanStatus) (rv : JSValue) (em : Option String),
      st.callStack.dropLast = [] →
      (wrapClose st entry endT stat rv em).currentTraceId = none) ∧
    (let p1 := probeEnter s0 n1 l1 a1 t0
     let s2 := wrapClose p1.1 p1.2 t1 .ok v1 none
     let p2 := probeEnter s2 n2 l2 a2 t2
     let s4 := wrapClose p2.1 p2.2 t3 .ok v2 none
     s2.currentTraceId = none ∧
     ∃ r1 r2 : SpanRecord,
       s2.spanRecords.getLast? = some r1 ∧
       s4.spanRecords.getLast? = some r2 ∧
       r1.traceId ≠ r2.traceId) := by
  constructor
  · intro st entry endT stat rv em hempty
    rw [wrapClose_currentTraceId, hempty]
    rfl
  · intro p1 s2 p2 s4
    have hclear : s2.currentTraceId = none := by
      rw [wrapClose_currentTraceId, probeEnter_fst_callStack, List.dropLast_concat, h1]
      rfl
    refine ⟨hclear, _, _, wrapClose_getLast _ _ _ _ _ _,
      wrapClose_getLast _ _ _ _ _ _, ?_⟩
    rw [finalizeRecord_traceId, finalizeRecord_traceId]
    have e1 : ({p1.1 with callStack := p1.1.callStack.dropLast} :
        TrackerState).currentTraceId = some s0.nextId := by
      show p1.1.currentTraceId = _
      rw [probeEnter_fst_currentTraceId, mintTrace_of_none s0 h2]
    have e2 : ({p2.1 with callStack := p2.1.callStack.dropLast} :
        TrackerState).currentTraceId = some s2.nextId := by
      show p2.1.currentTraceId = _
      rw [probeEnter_fst_currentTraceId, mintTrace_of_none s2 hclear]
    rw [mintTrace_fst _ _ e1, mintTrace_fst _ _ e2]
    have hn : s2.nextId = s0.nextId + 2 := by
      show (wrapClose p1.1 p1.2 t1 .ok v1 none).nextId = _
      rw [wrapClose_nextId,
        mintTrace_snd_of_some p1.1 _ (probeEnter_fst_currentTraceId s0 n1 l1 a1 t0),
        probeEnter_fst_nextId, mintTrace_of_none s0 h2]
    omega

/-- C2 witness: the two sequential root calls evaluated from the initial
state. -/
theorem c2_sequential_roots_distinct_traces_witness :
    (initState.callStack = [] ∧ initState.currentTraceId = none) ∧
    ((∀ (st : TrackerState) (entry : CallStackEntry) (endT : Nat)
      (stat : SpanStatus) (rv : JSValue) (em : Option String),
      st.callStack.dropLast = [] →
      (wrapClose st entry endT stat rv em).currentTraceId = none) ∧
    (let p1 := probeEnter initState "f" "" [] 0
     let s2 := wrapClose p1.1 p1.2 1 .ok .null none
     let p2 := probeEnter s2 "f" "" [] 2
     let s4 := wrapClose p2.1 p2.2 3 .ok .null none
     s2.currentTraceId = none ∧
     ∃ r1 r2 : SpanRecord,
       s2.spanRecords.getLast? = some r1 ∧
       s4.spanRecords.getLast? = some r2 ∧
       r1.traceId ≠ r2.traceId)) :=
  ⟨⟨rfl, rfl⟩,
    c2_sequential_roots_distinct_traces initState rfl rfl "f" "f" "" "" [] [] 0 1 2 3 .null .null⟩

/-- C5 (amended): a wrapped call whose body throws E (or whose returned
thenable rejects with E) records a span with status error whose errorMessage
is the derived message String of E.message or of E when that string is
non-empty — the field is omitted when the derived message is empty — and the
wrapped call re-throws (re-rejects with) the original E unchanged. -/
theorem c5_error_span_and_rethrow (st : TrackerState) (name loc : String)
    (args : List JSValue) (t0 t1 : Nat) (e : JSErr) :
    (let r := wrappedCallSync st name loc args t0 t1 (.thrown e)
     r.2 = .thrown e ∧
     ∃ rec0 : SpanRecord, r.1.spanRecords.getLast? = some rec0 ∧
       rec0.status = .error ∧
       rec0.errorMessage = (if errMsg e = "" then none else some (errMsg e))) ∧
    (let p := probeEnter st name loc args t0
     let r := settleRejected p.1 p.2 t1 e
     r.2 = e ∧
     ∃ rec0 : SpanRecord, r.1.spanRecords.getLast? = some rec0 ∧
       rec0.status = .error ∧
       rec0.errorMessage = (if errMsg e = "" then none else some (errMsg e))) := by
  constructor
  · exact ⟨rfl, _, wrapClose_getLast _ _ _ _ _ _, rfl, rfl⟩
  · exact ⟨rfl, _, wrapClose_getLast _ _ _ _ _ _, rfl, rfl⟩

/-- C5 counterexample to the claim as stated: a body that throws the empty
string (whose derived message String of E.message or E is empty) records an
error span carrying no message at all — the errorMessage field is dropped by
the truthiness test in recordSpan, so the span does not carry a message
derived from E. -/
theorem c5_empty_message_dropped :
    ((wrappedCallSync initState "f" "" [] 0 1
        (.thrown ⟨none, ""⟩)).1.spanRecords.map
      (fun r => (r.status, r.errorMessage))) = [(SpanStatus.error, none)] := by
  decide

/-- C3 (amended): the explicit exit operation behaves as the claim states —
an unmatched token is a complete no-op (chain, trace id and store all
unchanged), and a matched token has its entry located and removed by id even
when it is not the top of the chain, finalizing exactly one span for it. The
closure performed at settlement of a thenable, however, does not locate the
entry by token: it unconditionally removes the top (most recently pushed)
entry of the chain and records the settling invocation's span. -/
theorem c3_exit_by_id_settlement_pops_top :
    (∀ (st : TrackerState) (tok : Nat) (rv : JSValue) (err : Option JSErr) (now : Nat),
      st.callStack.find? (fun e => e.spanId == tok) = none →
      probeExit st tok rv err now = st) ∧
    (∀ (st : TrackerState) (tok : Nat) (rv : JSValue) (err : Option JSErr) (now : Nat)
      (entry : CallStackEntry),
      st.callStack.find? (fun e => e.spanId == tok) = some entry →
      (probeExit st tok rv err now).callStack =
        st.callStack.eraseP (fun e => e.spanId == tok) ∧
      ((probeExit st tok rv err now).spanRecords.getLast?.map (fun r => r.spanId)) =
        some entry.spanId ∧
      (st.spanRecords.length < MAX_SPANS →
        (probeExit st tok rv err now).spanRecords.length = st.spanRecords.length + 1)) ∧
    (∀ (st : TrackerState) (entry : CallStackEntry) (endT : Nat) (v : JSValue),
      (settleResolved st entry endT v).1.callStack = st.callStack.dropLast ∧
      ((settleResolved st entry endT v).1.spanRecords.getLast?.map (fun r => r.spanId)) =
        some entry.spanId) :=
  ⟨probeExit_notfound,
   fun st tok rv err now entry h =>
    ⟨probeExit_found_callStack st tok rv err now entry h,
     probeExit_found_last_spanId st tok rv err now entry h,
     fun hlen => probeExit_found_length st tok rv err now entry h hlen⟩,
   fun st entry endT v =>
    ⟨wrapClose_callStack st entry endT .ok v none, by
      show ((wrapClose st entry endT .ok v none).spanRecords.getLast?.map
        (fun r => r.spanId)) = some entry.spanId
      rw [wrapClose_getLast]
      rfl⟩⟩

/-- A tracker state with two nested open entries: A (spanId 1) below
B (spanId 2). -/
def demoStacked : TrackerState :=
  (probeEnter (probeEnter initState "A" "" [] 0).1 "B" "" [] 1).1

/-- The open entry of A in demoStacked. -/
def demoEntryA : CallStackEntry := (probeEnter initState "A" "" [] 0).2

/-- C3 witness: the explicit exit evaluated on a concrete two-entry chain —
an absent token leaves the state untouched, and a present token (the bottom
entry, not the top) is removed by id with exactly one span recorded for it. -/
theorem c3_exit_by_id_settlement_pops_top_witness :
    (demoStacked.callStack.find? (fun e => e.spanId == 7) = none ∧
      probeExit demoStacked 7 .undef none 9 = demoStacked) ∧
    (demoStacked.callStack.find? (fun e => e.spanId == 1) = some demoEntryA ∧
      demoStacked.spanRecords.length < MAX_SPANS ∧
      (probeExit demoStacked 1 .undef none 9).callStack =
        demoStacked.callStack.eraseP (fun e => e.spanId == 1) ∧
      (probeExit demoStacked 1 .undef none 9).spanRecords.length =
        demoStacked.spanRecords.length + 1) :=
  ⟨⟨by decide, c3_exit_by_id_settlement_pops_top.1 demoStacked 7 .undef none 9 (by decide)⟩,
   ⟨by decide, by decide,
    (c3_exit_by_id_settlement_pops_top.2.1 demoStacked 1 .undef none 9 demoEntryA
      (by decide)).1,
    (c3_exit_by_id_settlement_pops_top.2.1 demoStacked 1 .undef none 9 demoEntryA
      (by decide)).2.2 (by decide)⟩⟩

/-- C3 counterexample to the claim as stated for the thenable-settlement
closure: A (spanId 1) returns a thenable and B (spanId 2) is opened on top;
when A's thenable settles, the claim requires the matching entry 1 to be
located and removed, leaving the chain holding 2. Instead the handler pops
the top, so the chain still holds entry 1 while A's span has already been
recorded. -/
theorem c3_settlement_removes_wrong_entry :
    let pA := probeEnter initState "A" "" [] 0
    let pB := probeEnter pA.1 "B" "" [] 1
    let s3 := (settleResolved pB.1 pA.2 2 .null).1
    pA.2.spanId = 1 ∧ pB.2.spanId = 2 ∧
    s3.callStack.map (fun e => e.spanId) = [1] ∧
    s3.spanRecords.map (fun r => r.spanId) = [1] := by
  decide

/-- C10 (amended): clearSpans resets the whole tracker state — span store
empty, call chain empty, current trace id null. An invocation still in flight
at clear time has its open entry discarded; when it later completes through
settlement of its thenable, its span is recorded under a freshly minted trace
id (the next generated identifier) with no resolvable parent on the chain and
the trace id stays cleared afterwards; when it instead completes through the
explicit exit operation, the exit finds no matching entry and is a silent
no-op, recording nothing. -/
theorem c10_clear_resets_tracker :
    (∀ st : TrackerState,
      (clearSpans st).spanRecords = [] ∧
      (clearSpans st).callStack = [] ∧
      (clearSpans st).currentTraceId = none) ∧
    (∀ (st : TrackerState) (entry : CallStackEntry) (endT : Nat) (v : JSValue),
      ((settleResolved (clearSpans st) entry endT v).1.spanRecords.map
        (fun r => (r.traceId, r.callerName))) = [(st.nextId, none)] ∧
      (settleResolved (clearSpans st) entry endT v).1.currentTraceId = none) ∧
    (∀ (st : TrackerState) (tok : Nat) (rv : JSValue) (err : Option JSErr) (now : Nat),
      probeExit (clearSpans st) tok rv err now = clearSpans st) := by
  refine ⟨fun st => ⟨rfl, rfl, rfl⟩, fun st entry endT v => ?_, fun st tok rv err now => ?_⟩
  · cases hp : entry.parentSpanId <;>
      simp [settleResolved, wrapClose, recordSpan, finalizeRecord, clearSpans,
        mintTrace, MAX_SPANS, hp]
  · exact probeExit_notfound _ tok rv err now rfl

/-- C10 counterexample to the claim as stated: an invocation in flight at
clear time that later completes through the explicit exit operation does not
get its span recorded — the exit is a no-op and the store stays empty. -/
theorem c10_exit_after_clear_records_nothing :
    let p := probeEnter initState "f" "" [] 0
    let s2 := clearSpans p.1
    let s3 := probeExit s2 p.2.spanId .null none 5
    s3.spanRecords = [] ∧ s3 = s2 := by
  decide

theorem buildNode_span (spans : List SpanRecord) (f : Nat) (s : SpanRecord) :
    (buildNode spans f s).span = s := by cases f <;> rfl

theorem buildNode_children (spans : List SpanRecord) (f : Nat) (s : SpanRecord) :
    (buildNode spans (f + 1) s).children =
      (nodeChildren spans s).map (buildNode spans f) := rfl

theorem map_span_buildNode (spans l : List SpanRecord) (f : Nat) :
    (l.map (buildNode spans f)).map TreeNode.span = l := by
  rw [List.map_map]
  have he : (TreeNode.span ∘ buildNode spans f) = id :=
    funext fun c => buildNode_span spans f c
  rw [he, List.map_id]

/-- C6: the call-tree query returns null exactly when the store holds no
spans for the trace; otherwise every span whose parentSpanId resolves within
the trace is attached as a child of that span's node, the root nodes are
exactly the remaining spans, a single root is returned directly and several
roots come back as the uncollapsed list. -/
theorem c6_call_tree_roots (store : List SpanRecord) (tid : Nat) :
    (getSpansByTraceId store tid = [] → getCallTree store tid = .null) ∧
    (getSpansByTraceId store tid ≠ [] →
      getCallTree store tid ≠ .null ∧
      ((rootSpans (getSpansByTraceId store tid)).map
          (buildNode (getSpansByTraceId store tid)
            (getSpansByTraceId store tid).length)).map TreeNode.span =
        rootSpans (getSpansByTraceId store tid) ∧
      (∀ p ∈ getSpansByTraceId store tid, ∀ s ∈ getSpansByTraceId store tid,
        s.parentSpanId = some p.spanId →
        s ∈ ((buildNode (getSpansByTraceId store tid)
          (getSpansByTraceId store tid).length p).children.map TreeNode.span)) ∧
      (∀ r : SpanRecord, rootSpans (getSpansByTraceId store tid) = [r] →
        getCallTree store tid = .single (buildNode (getSpansByTraceId store tid)
          (getSpansByTraceId store tid).length r)) ∧
      (2 ≤ (rootSpans (getSpansByTraceId store tid)).length →
        getCallTree store tid =
          .multiple ((rootSpans (getSpansByTraceId store tid)).map
            (buildNode (getSpansByTraceId store tid)
              (getSpansByTraceId store tid).length)))) := by
  constructor
  · intro h
    simp [getCallTree, h]
  · intro h
    refine ⟨?_, map_span_buildNode _ _ _, ?_, ?_, ?_⟩
    · simp only [getCallTree]
      rw [if_neg (by simp [List.isEmpty_iff, h])]
      rcases hroots : (rootSpans (getSpansByTraceId store tid)).map
          (buildNode (getSpansByTraceId store tid) (getSpansByTraceId store tid).length)
        with _ | ⟨a, _ | ⟨b, t⟩⟩ <;> simp
    · intro p hp s hs hps
      obtain ⟨n, hn⟩ : ∃ n, (getSpansByTraceId store tid).length = n + 1 := by
        cases hsp : getSpansByTraceId store tid with
        | nil => exact absurd hsp h
        | cons a t => exact ⟨t.length, by simp [hsp]⟩
      rw [hn, buildNode_children, map_span_buildNode]
      simp only [nodeChildren, List.mem_filter]
      exact ⟨hs, by simp [hps]⟩
    · intro r hr
      simp only [getCallTree, hr]
      rw [if_neg (by simp [List.isEmpty_iff, h])]
      rfl
    · intro hr
      simp only [getCallTree]
      rw [if_neg (by simp [List.isEmpty_iff, h])]
      rcases hroots : rootSpans (getSpansByTraceId store tid) with _ | ⟨a, _ | ⟨b, t⟩⟩
      · rw [hroots] at hr; simp at hr
      · rw [hroots] at hr; simp at hr
      · rfl

/-- A two-span store: a root (spanId 1) and its child (spanId 2) in trace 0. -/
def c6Store : List SpanRecord := [mkSpan 0 1 none 0, mkSpan 0 2 (some 1) 1]

/-- C6 witness: on the concrete two-span store, an unknown trace id yields
null, the trace is not null, the child span is attached under the root node,
and the single root is returned directly. -/
theorem c6_call_tree_roots_witness :
    (getSpansByTraceId c6Store 99 = [] ∧ getCallTree c6Store 99 = .null) ∧
    (getSpansByTraceId c6Store 0 ≠ [] ∧
      getCallTree c6Store 0 ≠ .null ∧
      (mkSpan 0 1 none 0 ∈ getSpansByTraceId c6Store 0 ∧
        mkSpan 0 2 (some 1) 1 ∈ getSpansByTraceId c6Store 0 ∧
        (mkSpan 0 2 (some 1) 1).parentSpanId = some (mkSpan 0 1 none 0).spanId ∧
        mkSpan 0 2 (some 1) 1 ∈ ((buildNode (getSpansByTraceId c6Store 0)
          (getSpansByTraceId c6Store 0).length (mkSpan 0 1 none 0)).children.map
            TreeNode.span)) ∧
      (rootSpans (getSpansByTraceId c6Store 0) = [mkSpan 0 1 none 0] ∧
        getCallTree c6Store 0 = .single (buildNode (getSpansByTraceId c6Store 0)
          (getSpansByTraceId c6Store 0).length (mkSpan 0 1 none 0)))) :=
  ⟨⟨by decide, (c6_call_tree_roots c6Store 99).1 (by decide)⟩,
   ⟨by decide,
    ((c6_call_tree_roots c6Store 0).2 (by decide)).1,
    ⟨by decide, by decide, by decide,
      ((c6_call_tree_roots c6Store 0).2 (by decide)).2.2.1
        (mkSpan 0 1 none 0) (by decide) (mkSpan 0 2 (some 1) 1) (by decide) (by decide)⟩,
    ⟨by decide,
      ((c6_call_tree_roots c6Store 0).2 (by decide)).2.2.2.1
        (mkSpan 0 1 none 0) (by decide)⟩⟩⟩

theorem c7_children_aux (spans : List SpanRecord) (rk : Nat → Nat)
    (hrk : ∀ c ∈ spans, ∀ p ∈ spans, c.parentSpanId = some p.spanId →
      rk c.spanId < rk p.spanId) :
    ∀ f : Nat, ∀ s ∈ spans, rk s.spanId < f → ∀ t : TreeNode,
      InTree (buildNode spans f s) t →
      t.children.map TreeNode.span = nodeChildren spans t.span := by
  intro f
  induction f with
  | zero => intro s hs hlt; omega
  | succ n ih =>
    intro s hs hlt t ht
    cases ht with
    | refl =>
      rw [buildNode_children, map_span_buildNode, buildNode_span]
    | step hc hsub =>
      rename_i c
      rw [buildNode_children] at hc
      obtain ⟨c', hc', rfl⟩ := List.mem_map.mp hc
      have hcmem : c' ∈ spans ∧ c'.parentSpanId = some s.spanId := by
        have := List.mem_filter.mp hc'
        exact ⟨this.1, by simpa using this.2⟩
      have hlt' : rk c'.spanId < rk s.spanId := hrk c' hcmem.1 s hs hcmem.2
      exact ih c' hcmem.1 (by omega) t hsub

/-- C7 (amended): in the reconstructed call tree, every node's children are
exactly the spans of the trace whose parentSpanId equals the node's spanId, in
the order those spans sit in the span store (insertion order) — they are not
re-sorted by startTime. Stated for any trace whose parent links admit a rank
function (no parent cycles), which holds for every store the tracker itself
produces. -/
theorem c7_children_exact_in_store_order (store : List SpanRecord) (tid : Nat)
    (rk : Nat → Nat)
    (hrk : ∀ c ∈ getSpansByTraceId store tid, ∀ p ∈ getSpansByTraceId store tid,
      c.parentSpanId = some p.spanId → rk c.spanId < rk p.spanId)
    (hbound : ∀ s ∈ getSpansByTraceId store tid,
      rk s.spanId < (getSpansByTraceId store tid).length) :
    ∀ s ∈ rootSpans (getSpansByTraceId store tid), ∀ t : TreeNode,
      InTree (buildNode (getSpansByTraceId store tid)
        (getSpansByTraceId store tid).length s) t →
      t.children.map TreeNode.span =
        nodeChildren (getSpansByTraceId store tid) t.span := by
  intro s hs t ht
  have hsmem : s ∈ getSpansByTraceId store tid := (List.mem_filter.mp hs).1
  exact c7_children_aux _ rk hrk _ s hsmem (hbound s hsmem) t ht

/-- A store reached by the tracker under async interleaving: W enters and
returns a pending thenable, P enters under W, X enters under P and returns a
pending thenable; W's thenable then settles (popping X's entry while
recording W), Y enters under P and exits, X's thenable settles, P's thenable
settles. The children of P (the spans X and Y with parentSpanId 2) end up in
the store in the order Y then X although X started first. -/
def c7Store : List SpanRecord :=
  let pW := probeEnter initState "W" "" [] 0
  let pP := probeEnter pW.1 "P" "" [] 5
  let pX := probeEnter pP.1 "X" "" [] 10
  let s1 := (settleResolved pX.1 pW.2 12 .null).1
  let pY := probeEnter s1 "Y" "" [] 20
  let s2 := probeExit pY.1 pY.2.spanId .null none 25
  let s3 := (settleResolved s2 pX.2 30 .null).1
  let s4 := (settleResolved s3 pP.2 40 .null).1
  s4.spanRecords

/-- The start times of the children of node P (spanId 2) in the call tree of
c7Store. -/
def c7ChildStartsOfP : List Nat :=
  match getCallTree c7Store 0 with
  | .single w =>
      match w.children with
      | [p] => p.children.map (fun c => c.span.startTime)
      | _ => []
  | _ => []

/-- C7 counterexample to the claim as stated: in the call tree reconstructed
from c7Store, the children of node P carry start times 20 and then 10 — they
appear in store insertion order, not in ascending startTime order. -/
theorem c7_children_not_sorted_by_startTime :
    c7ChildStartsOfP = [20, 10] ∧ ¬ c7ChildStartsOfP.Pairwise (· ≤ ·) := by
  decide

/-- A rank function witnessing that the parent links of c7Store are acyclic:
the root W (spanId 1) is ranked above P (spanId 2), which is above the leaves
X and Y. -/
def c7Rank : Nat → Nat := fun n => if n == 1 then 3 else if n == 2 then 2 else 1

/-- The first span of trace 0 in c7Store (the root span of W). -/
def c7RootSpan : SpanRecord :=
  match getSpansByTraceId c7Store 0 with
  | r :: _ => r
  | [] => mkSpan 0 0 none 0

/-- C7 witness: the amended children characterization applied to the concrete
store c7Store at its root node. -/
theorem c7_children_exact_in_store_order_witness :
    (∀ c ∈ getSpansByTraceId c7Store 0, ∀ p ∈ getSpansByTraceId c7Store 0,
      c.parentSpanId = some p.spanId → c7Rank c.spanId < c7Rank p.spanId) ∧
    (∀ s ∈ getSpansByTraceId c7Store 0,
      c7Rank s.spanId < (getSpansByTraceId c7Store 0).length) ∧
    c7RootSpan ∈ rootSpans (getSpansByTraceId c7Store 0) ∧
    ((buildNode (getSpansByTraceId c7Store 0) (getSpansByTraceId c7Store 0).length
        c7RootSpan).children.map TreeNode.span =
      nodeChildren (getSpansByTraceId c7Store 0)
        (buildNode (getSpansByTraceId c7Store 0) (getSpansByTraceId c7Store 0).length
          c7RootSpan).span) :=
  ⟨by decide, by decide, by decide,
    c7_children_exact_in_store_order c7Store 0 c7Rank (by decide) (by decide)
      c7RootSpan (by decide) _ (InTree.refl _)⟩

/-! ### Span cache lemmas (C4) -/

/-- The key sequence of the span cache map. -/
def cacheIds (spans : List CacheRec) : List Nat := spans.map (fun r => r.spanId)

theorem length_filter_not_add {α : Type} (p : α → Bool) (l : List α) :
    (l.filter p).length + (l.filter (fun a => !p a)).length = l.length := by
  induction l with
  | nil => rfl
  | cons a t ih => cases hp : p a <;> simp [List.filter_cons, hp] <;> omega

theorem filter_not_length_le {α : Type} (l : List α) (p : α → Bool) (k : Nat)
    (h : k ≤ (l.filter p).length) :
    (l.filter (fun a => !p a)).length + k ≤ l.length := by
  have := length_filter_not_add p l
  omega

theorem cleanup_length_le (spans : List CacheRec) :
    (cacheCleanup spans).length + spans.length * 2 / 10 ≤ spans.length := by
  unfold cacheCleanup
  dsimp only
  have hperm : List.Perm (cacheGetAllSpans spans) spans := List.perm_insertionSort _ spans
  have hlenarr : (cacheGetAllSpans spans).length = spans.length := hperm.length_eq
  set arr := cacheGetAllSpans spans with harr
  set dropN := arr.length * 2 / 10 with hdn
  set victims := arr.take dropN with hv
  apply filter_not_length_le
  have hvic_all : ∀ v ∈ victims,
      (fun x => victims.any (fun w => w.spanId == x.spanId)) v = true := by
    intro v hvm
    simp only [List.any_eq_true]
    exact ⟨v, hvm, by simp⟩
  have h1 : victims.filter (fun x => victims.any (fun w => w.spanId == x.spanId)) =
      victims := List.filter_eq_self.mpr hvic_all
  have h3 : victims.length ≤
      (arr.filter (fun x => victims.any (fun w => w.spanId == x.spanId))).length := by
    have hsub := ((List.take_sublist dropN arr).filter
      (fun x => victims.any (fun w => w.spanId == x.spanId))).length_le
    rw [← hv] at hsub
    rw [h1] at hsub
    exact hsub
  have h4 : (arr.filter (fun x => victims.any (fun w => w.spanId == x.spanId))).length =
      (spans.filter (fun x => victims.any (fun w => w.spanId == x.spanId))).length :=
    (hperm.filter _).length_eq
  have hvlen : victims.length = dropN := by
    rw [hv, List.length_take]
    omega
  omega

theorem mapSet_ids_of_present (spans : List CacheRec) (r : CacheRec)
    (h : spans.any (fun x => x.spanId == r.spanId) = true) :
    cacheIds (mapSet spans r) = cacheIds spans := by
  unfold mapSet cacheIds
  rw [if_pos h, List.map_map]
  apply List.map_congr_left
  intro x _
  by_cases hx : x.spanId = r.spanId
  · simp [hx]
  · simp [hx]

theorem mapSet_ids_of_absent (spans : List CacheRec) (r : CacheRec)
    (h : ¬ spans.any (fun x => x.spanId == r.spanId) = true) :
    cacheIds (mapSet spans r) = cacheIds spans ++ [r.spanId] := by
  unfold mapSet cacheIds
  rw [if_neg h, List.map_append]
  rfl

theorem mapSet_nodup (spans : List CacheRec) (r : CacheRec)
    (h : (cacheIds spans).Nodup) : (cacheIds (mapSet spans r)).Nodup := by
  by_cases hp : spans.any (fun x => x.spanId == r.spanId) = true
  · rw [mapSet_ids_of_present spans r hp]; exact h
  · rw [mapSet_ids_of_absent spans r hp]
    rw [List.nodup_append]
    refine ⟨h, List.nodup_singleton _, ?_⟩
    intro a ha hb
    simp at hb
    subst hb
    simp [List.any_eq_true] at hp
    obtain ⟨x, hx, hxe⟩ := List.mem_map.mp ha
    exact hp x hx (by rw [hxe])

theorem mapSet_length_le (spans : List CacheRec) (r : CacheRec) :
    (mapSet spans r).length ≤ spans.length + 1 := by
  unfold mapSet
  split
  · simp
  · simp

theorem cleanup_sublist (spans : List CacheRec) :
    (cacheCleanup spans).Sublist spans := by
  unfold cacheCleanup
  exact List.filter_sublist spans

theorem cleanup_nodup (spans : List CacheRec) (h : (cacheIds spans).Nodup) :
    (cacheIds (cacheCleanup spans)).Nodup := by
  unfold cacheIds at h ⊢
  exact ((cleanup_sublist spans).map (fun r => r.spanId)).nodup h

theorem addSpan_invariant (spans : List CacheRec) (s : OTelSpanInput)
    (h1 : (cacheIds spans).Nodup) (h2 : spans.length ≤ 8500) :
    (cacheIds (cacheAddSpan spans s)).Nodup ∧ (cacheAddSpan spans s).length ≤ 8500 := by
  unfold cacheAddSpan
  dsimp only
  have hn1 : (cacheIds (mapSet spans (convertSpan s))).Nodup := mapSet_nodup _ _ h1
  have hl1 : (mapSet spans (convertSpan s)).length ≤ spans.length + 1 :=
    mapSet_length_le _ _
  split
  · rename_i hgt
    refine ⟨cleanup_nodup _ hn1, ?_⟩
    have hcl := cleanup_length_le (mapSet spans (convertSpan s))
    omega
  · rename_i hle
    exact ⟨hn1, by omega⟩

theorem foldl_addSpan_invariant (inputs : List OTelSpanInput) :
    ∀ spans : List CacheRec, (cacheIds spans).Nodup → spans.length ≤ 8500 →
    (cacheIds (inputs.foldl cacheAddSpan spans)).Nodup ∧
      (inputs.foldl cacheAddSpan spans).length ≤ 8500 := by
  induction inputs with
  | nil => intro spans h1 h2; exact ⟨h1, h2⟩
  | cons a t ih =>
    intro spans h1 h2
    have := addSpan_invariant spans a h1 h2
    exact ih _ this.1 this.2

theorem filter_not_mem_prefix (l1 l2 : List CacheRec)
    (hdisj : ∀ a ∈ l2, ∀ b ∈ l1, b.spanId ≠ a.spanId) :
    (l1 ++ l2).filter (fun r => !l1.any (fun v => v.spanId == r.spanId)) = l2 := by
  rw [List.filter_append]
  have h1 : l1.filter (fun r => !l1.any (fun v => v.spanId == r.spanId)) = [] := by
    rw [List.filter_eq_nil_iff]
    intro a ha
    simp [List.any_eq_true]
    exact ⟨a, ha, rfl⟩
  have h2 : l2.filter (fun r => !l1.any (fun v => v.spanId == r.spanId)) = l2 := by
    rw [List.filter_eq_self]
    intro a ha
    simp [List.any_eq_false]
    intro x hx
    exact hdisj a ha x hx
  rw [h1, h2, List.nil_append]

theorem cleanup_eq_drop (spans : List CacheRec)
    (hsort : spans.Pairwise (fun a b => a.startTime ≤ b.startTime))
    (hnodup : (cacheIds spans).Nodup) :
    cacheCleanup spans = spans.drop (spans.length * 2 / 10) := by
  unfold cacheCleanup
  dsimp only
  have harr : cacheGetAllSpans spans = spans := List.Sorted.insertionSort_eq hsort
  rw [harr]
  set dropN := spans.length * 2 / 10 with hd
  have hconv : List.filter
      (fun r => !((spans.take dropN).any (fun v => v.spanId == r.spanId))) spans =
    List.filter (fun r => !((spans.take dropN).any (fun v => v.spanId == r.spanId)))
      (spans.take dropN ++ spans.drop dropN) := by
    rw [List.take_append_drop]
  rw [hconv]
  have hsplitIds : cacheIds spans =
      cacheIds (spans.take dropN) ++ cacheIds (spans.drop dropN) := by
    unfold cacheIds
    rw [← List.map_append, List.take_append_drop]
  rw [hsplitIds, List.nodup_append] at hnodup
  obtain ⟨-, -, hdisj⟩ := hnodup
  apply filter_not_mem_prefix
  intro a ha b hb hbe
  exact hdisj (List.mem_map_of_mem _ hb) (hbe ▸ List.mem_map_of_mem _ ha)

/-- C4: the span cache never exceeds MAX_SPANS — every add past the 8500
(MAX_SPANS times 0.85) threshold immediately evicts the oldest 20% by
startTime order, keeping the size bounded (in fact by the threshold itself);
when the insertion order agrees with startTime order (monotone timestamps)
and spanIds are distinct, the eviction drops exactly the oldest fifth of the
store and retains the most recently inserted spans. The test-probe runtime
store is likewise bounded by MAX_SPANS under its own splice-1000 policy. -/
theorem c4_store_bounded_eviction_keeps_recent :
    (∀ inputs : List OTelSpanInput,
      (inputs.foldl cacheAddSpan []).length ≤ MAX_SPANS) ∧
    (∀ spans : List CacheRec,
      spans.Pairwise (fun a b => a.startTime ≤ b.startTime) →
      (cacheIds spans).Nodup →
      cacheCleanup spans = spans.drop (spans.length * 2 / 10)) ∧
    (∀ (st : TrackerState) (entry : CallStackEntry) (endT : Nat)
      (stat : SpanStatus) (rv : JSValue) (em : Option String),
      st.spanRecords.length ≤ MAX_SPANS →
      (recordSpan st entry endT stat rv em).spanRecords.length ≤ MAX_SPANS) := by
  refine ⟨fun inputs => ?_, fun spans h1 h2 => cleanup_eq_drop spans h1 h2,
    fun st entry endT stat rv em h => ?_⟩
  · have := (foldl_addSpan_invariant inputs [] (by simp [cacheIds]) (by simp)).2
    simp only [MAX_SPANS]
    omega
  · rw [recordSpan_spanRecords]
    simp only [MAX_SPANS] at h ⊢
    split <;> rename_i hc <;> simp only [List.length_append, List.length_drop,
      List.length_singleton] <;> omega

/-- Demo open entry whose invocation captured 12 arguments. -/
def demoEntry12 : CallStackEntry :=
  ⟨1, "f", "", 0, List.replicate 12 JSValue.null, none⟩

/-- An OTel span input used to exercise the cache. -/
def demoInput : OTelSpanInput :=
  { traceId := 0, spanId := 1, parentSpanId := none, name := "",
    startTime := (0, 0), endTime := (0, 0) }

/-- A cache entry with the given spanId and timestamp. -/
def mkCacheRec (sid : Nat) (t : ℚ) : CacheRec :=
  { traceId := 0, spanId := sid, parentSpanId := none, name := "",
    startTime := t, endTime := t, duration := 0 }

/-- A five-record cache in ascending startTime order with distinct ids. -/
def demoCache : List CacheRec :=
  [mkCacheRec 1 1, mkCacheRec 2 2, mkCacheRec 3 3, mkCacheRec 4 4, mkCacheRec 5 5]

/-- C4 witness: the bound applied to a concrete input sequence, and the
eviction evaluated on a concrete sorted five-record cache, dropping exactly
its oldest fifth. -/
theorem c4_store_bounded_eviction_keeps_recent_witness :
    (([demoInput].foldl cacheAddSpan []).length ≤ MAX_SPANS) ∧
    (demoCache.Pairwise (fun a b => a.startTime ≤ b.startTime) ∧
      (cacheIds demoCache).Nodup ∧
      cacheCleanup demoCache = demoCache.drop (demoCache.length * 2 / 10)) ∧
    (initState.spanRecords.length ≤ MAX_SPANS ∧
      (recordSpan initState demoEntry12 5 .ok .undef none).spanRecords.length ≤
        MAX_SPANS) :=
  ⟨c4_store_bounded_eviction_keeps_recent.1 [demoInput],
   ⟨by decide, by decide,
    c4_store_bounded_eviction_keeps_recent.2.1 demoCache (by decide) (by decide)⟩,
   ⟨by decide,
    c4_store_bounded_eviction_keeps_recent.2.2 initState demoEntry12 5 .ok .undef none
      (by decide)⟩⟩

/-- C9 witness: a 12-argument invocation records exactly 10 formatted
arguments. -/
theorem c9_args_capped_at_ten_witness :
    10 ≤ demoEntry12.args.length ∧
    ((recordSpan initState demoEntry12 5 .ok .undef none).spanRecords.getLast?.map
      (fun r => r.args.length)) = some 10 :=
  ⟨by decide, (c9_args_capped_at_ten initState demoEntry12 5 .ok .undef none).2 (by decide)⟩

end TsAgent
